import Mathlib

/-!
Verification of the recommendation and relevance-scoring engine of the
Nexus video-discovery application, shallowly embedded in Lean 4.

The embedding follows the JavaScript source:
  - src/services/recommendationEngine.js  (user preference store, similarity
    library, collaborative / content-based / hybrid / popular / recent
    recommenders)
  - src/services/videoDatabase.js         (orchestrator fallback path,
    caption-weighted relevance scoring, app-format transformation)
  - backend/routes/csv.js                 (field-weighted search endpoint)

Modelling conventions:
  - JavaScript numbers are modelled as rationals; view/like/comment counts
    as naturals.
  - JavaScript Set objects are modelled as insertion-ordered duplicate-free
    lists (addSet / mkSet below); Map objects as insertion-ordered
    association lists (mapGetD / mapSet below), matching the iteration
    order guarantees of the ECMAScript specification.
  - Array.prototype.sort with comparator (a, b) => key b - key a is a
    stable descending sort (stability is required by ES2019); it is
    modelled by the stable insertion sort sortByDesc below.
  - Math.random() and Date.now() are modelled as explicit entropy inputs.
-/

namespace Nexus

/-! ## String helpers (JavaScript primitives) -/

/-- JavaScript String.prototype.toLowerCase, per-character lowering. -/
def lowerStr (s : String) : String :=
  String.mk (s.toList.map Char.toLower)

/-- Check whether the character list pat occurs contiguously inside l,
    as JavaScript String.prototype.includes does on the code units. -/
def containsSub (pat : List Char) : List Char → Bool
  | [] => pat.isEmpty
  | c :: rest => pat.isPrefixOf (c :: rest) || containsSub pat rest

/-- JavaScript s.includes(pat). -/
def strContains (s pat : String) : Bool :=
  containsSub pat.toList s.toList

/-- Auxiliary: JavaScript String.prototype.split with a single-character
    separator, accumulating the current field. -/
def splitCharAux (sep : Char) : List Char → List Char → List String
  | [], cur => [String.mk cur.reverse]
  | c :: rest, cur =>
      if c = sep then String.mk cur.reverse :: splitCharAux sep rest []
      else splitCharAux sep rest (c :: cur)

/-- JavaScript s.split(sep) for a one-character separator: empty fields are
    kept, and the empty string splits to a single empty field. -/
def jsSplit (s : String) (sep : Char) : List String :=
  splitCharAux sep s.toList []

/-- Auxiliary for jsSplitWs: walk the characters keeping the current field
    and a flag recording whether the previous character belonged to a
    whitespace run (so a run of whitespace emits a single field break). -/
def splitWsAux : List Char → List Char → Bool → List String
  | [], cur, _ => [String.mk cur.reverse]
  | c :: rest, cur, inRun =>
      if c.isWhitespace then
        if inRun then splitWsAux rest cur true
        else String.mk cur.reverse :: splitWsAux rest [] true
      else splitWsAux rest (c :: cur) false

/-- JavaScript s.split(whitespace-run regular expression): splits on maximal
    whitespace runs, keeping a leading or trailing empty field when the
    string starts or ends with whitespace, and yielding one empty field for
    the empty string. -/
def jsSplitWs (s : String) : List String :=
  splitWsAux s.toList [] false

/-! ## JavaScript Set and Map models -/

/-- Set.prototype.add: append x unless already present. -/
def addSet (l : List String) (x : String) : List String :=
  if x ∈ l then l else l ++ [x]

/-- new Set(iterable): deduplicate keeping first occurrences, preserving
    insertion order. -/
def mkSet (l : List String) : List String :=
  l.foldl addSet []

/-- Map.prototype.get with default 0 (the pattern map.get(k) || 0). -/
def mapGetD (m : List (String × ℚ)) (k : String) : ℚ :=
  match m.find? (fun p => p.1 = k) with
  | some p => p.2
  | none => 0

/-- Map.prototype.set: update in place when the key exists (keeping its
    insertion position), otherwise append. -/
def mapSet (m : List (String × ℚ)) (k : String) (v : ℚ) : List (String × ℚ) :=
  if m.any (fun p => p.1 = k) then
    m.map (fun p => if p.1 = k then (k, v) else p)
  else m ++ [(k, v)]

/-! ## Stable descending sort

Array.prototype.sort with comparator (a, b) => key b - key a: stable,
descending by key. Insertion sort formulation; being stable, it agrees
with every stable sort on every input. -/

/-- Insert x into a descending-sorted list, before the first element whose
    key is not larger; elements with an equal key stay ahead of later
    arrivals, matching stability. -/
def insertByDesc {α β : Type _} [LinearOrder β] (key : α → β) (x : α) :
    List α → List α
  | [] => [x]
  | y :: ys => if key y ≤ key x then x :: y :: ys else y :: insertByDesc key x ys

/-- Stable descending sort by key. -/
def sortByDesc {α β : Type _} [LinearOrder β] (key : α → β) : List α → List α
  | [] => []
  | x :: xs => insertByDesc key x (sortByDesc key xs)

/-! ## Data model

VideoRecord as produced by csvParser.createVideoObject: the fields the
engine and the claims read. The derived metrics (engagementRate,
popularityScore, trendingScore) are computed once at ingestion and are
treated as read-only inputs here, as the specification prescribes. -/

structure Video where
  id : String
  title : String
  channelName : String
  description : String
  videoTags : List String
  category : String
  viewCount : ℕ
  likeCount : ℕ
  commentCount : ℕ
  publishDate : String
  engagementRate : ℚ
  popularityScore : ℚ
  trendingScore : ℚ
  deriving DecidableEq

/-- UserPreferenceProfile: the per-user record created lazily by
    addUserPreference in recommendationEngine.js. The four JavaScript Sets
    are insertion-ordered duplicate-free lists; preferences is the
    Map from video id to preference score. -/
structure Profile where
  likedVideos : List String
  viewedVideos : List String
  sharedVideos : List String
  dislikedVideos : List String
  preferences : List (String × ℚ)
  deriving DecidableEq

/-- The userPreferences Map of the RecommendationEngine instance:
    an insertion-ordered association list from user id to profile. -/
abbrev EngineState : Type := List (String × Profile)

/-- Map.prototype.get on the user-preferences map. -/
def lookupProfile (st : EngineState) (userId : String) : Option Profile :=
  (st.find? (fun p => p.1 = userId)).map Prod.snd

/-- The profile created on a first interaction. -/
def emptyProfile : Profile :=
  { likedVideos := [], viewedVideos := [], sharedVideos := []
  , dislikedVideos := [], preferences := [] }

/-- The switch body of addUserPreference: the state change applied to the
    profile of the interacting user. Unknown actions fall through the
    switch and leave the profile unchanged. -/
def applyAction (p : Profile) (videoId action : String) (score : ℚ) : Profile :=
  if action = "like" then
    { p with likedVideos := addSet p.likedVideos videoId
           , preferences := mapSet p.preferences videoId
               (max score (mapGetD p.preferences videoId)) }
  else if action = "view" then
    { p with viewedVideos := addSet p.viewedVideos videoId
           , preferences := mapSet p.preferences videoId
               (max (score * 0.5) (mapGetD p.preferences videoId)) }
  else if action = "share" then
    { p with sharedVideos := addSet p.sharedVideos videoId
           , preferences := mapSet p.preferences videoId
               (max (score * 1.5) (mapGetD p.preferences videoId)) }
  else if action = "dislike" then
    { p with dislikedVideos := addSet p.dislikedVideos videoId
           , preferences := mapSet p.preferences videoId
               (min (score * (-1)) (mapGetD p.preferences videoId)) }
  else p

/-- addUserPreference(userId, videoId, action, score) of
    recommendationEngine.js: lazily create the profile, then run the
    action switch. -/
def addUserPreference (st : EngineState) (userId videoId action : String)
    (score : ℚ) : EngineState :=
  let st' : EngineState :=
    if st.any (fun p => p.1 = userId) then st else st ++ [(userId, emptyProfile)]
  st'.map (fun p => if p.1 = userId
    then (userId, applyAction p.2 videoId action score) else p)

/-! ## Similarity library -/

/-- calculateUserSimilarity: Jaccard similarity of the likedVideos sets. -/
def calculateUserSimilarity (p1 p2 : Profile) : ℚ :=
  let inter := mkSet (p1.likedVideos.filter (fun x => x ∈ p2.likedVideos))
  let uni := mkSet (p1.likedVideos ++ p2.likedVideos)
  if uni.length = 0 then 0
  else (inter.length : ℚ) / (uni.length : ℚ)

/-- calculateTextSimilarity: word-set Jaccard overlap of the lower-cased
    whitespace-split texts. -/
def calculateTextSimilarity (text1 text2 : String) : ℚ :=
  let words1 := mkSet (jsSplitWs (lowerStr text1))
  let words2 := mkSet (jsSplitWs (lowerStr text2))
  let inter := mkSet (words1.filter (fun x => x ∈ words2))
  let uni := mkSet (words1 ++ words2)
  if uni.length > 0 then (inter.length : ℚ) / (uni.length : ℚ) else 0

/-- calculateVideoSimilarity: the weighted combination of channel match
    (0.4), tag Jaccard (0.3, added only when the tag union is non-empty),
    title word overlap (0.2) and engagement closeness (0.1), divided by the
    accumulated factor mass (always 1.0 in the source). -/
def calculateVideoSimilarity (video1 video2 : Video) : ℚ :=
  let tags1 := mkSet video1.videoTags
  let tags2 := mkSet video2.videoTags
  let tagInter := mkSet (tags1.filter (fun x => x ∈ tags2))
  let tagUnion := mkSet (tags1 ++ tags2)
  let s1 : ℚ := if video1.channelName = video2.channelName then 0.4 else 0
  let s2 : ℚ :=
    if tagUnion.length > 0
    then s1 + ((tagInter.length : ℚ) / (tagUnion.length : ℚ)) * 0.3
    else s1
  let s3 : ℚ := s2 + calculateTextSimilarity video1.title video2.title * 0.2
  let engagementDiff : ℚ := |video1.engagementRate - video2.engagementRate|
  let engagementSimilarity : ℚ := max 0 (1 - engagementDiff)
  let s4 : ℚ := s3 + engagementSimilarity * 0.1
  let factors : ℚ := 0.4 + 0.3 + 0.2 + 0.1
  if factors > 0 then s4 / factors else 0

/-! ## Recommenders -/

/-- getPopularRecommendations: score every catalogue video with
    trendingScore * 0.4 + popularityScore * 0.6, sort descending by that
    blend (stable) and keep the top limit entries. The second component of
    each pair is the recommendationScore attached to the video. -/
def getPopularRecommendations (catalogue : List Video) (limit : ℕ) :
    List (Video × ℚ) :=
  ((catalogue.map (fun v =>
      (v, v.trendingScore * 0.4 + v.popularityScore * 0.6)))
    |> sortByDesc (fun p => p.2)).take limit

/-- getContentBasedRecommendations: look up the reference video by id;
    when absent delegate to the popularity fallback; otherwise score every
    other catalogue video by similarity to the reference, sort descending
    and keep the top limit. -/
def getContentBasedRecommendations (catalogue : List Video)
    (videoId : String) (limit : ℕ) : List (Video × ℚ) :=
  match catalogue.find? (fun v => v.id = videoId) with
  | none => getPopularRecommendations catalogue limit
  | some referenceVideo =>
      (((catalogue.filter (fun v => v.id ≠ videoId)).map (fun v =>
          (v, calculateVideoSimilarity referenceVideo v)))
        |> sortByDesc (fun p => p.2)).take limit

/-- findSimilarUsers: every other known profile with strictly positive
    likedVideos Jaccard similarity to the target, sorted descending by
    similarity. -/
def findSimilarUsers (st : EngineState) (userId : String) :
    List (String × ℚ) :=
  match lookupProfile st userId with
  | none => []
  | some userPrefs =>
      ((st.filter (fun p => p.1 ≠ userId)).filterMap (fun p =>
          let s := calculateUserSimilarity userPrefs p.2
          if s > 0 then some (p.1, s) else none))
        |> sortByDesc (fun p => p.2)

/-- Inner loop of the collaborative candidate accumulation: fold one
    similar user into the candidateVideos map, adding that user
    similarity for every video they liked that the target user has neither
    liked nor disliked. -/
def accumOneUser (userPrefs : Profile) (m : List (String × ℚ))
    (liked : List String) (similarity : ℚ) : List (String × ℚ) :=
  liked.foldl (fun m videoId =>
    if videoId ∉ userPrefs.likedVideos ∧ videoId ∉ userPrefs.dislikedVideos
    then mapSet m videoId (mapGetD m videoId + similarity)
    else m) m

/-- Outer loop of the collaborative candidate accumulation over the
    similar-user list; a similar user whose profile is no longer present
    contributes nothing. -/
def accumCandidates (st : EngineState) (userPrefs : Profile)
    (similarUsers : List (String × ℚ)) : List (String × ℚ) :=
  similarUsers.foldl (fun m su =>
    match lookupProfile st su.1 with
    | some similarUserPrefs =>
        accumOneUser userPrefs m similarUserPrefs.likedVideos su.2
    | none => m) []

/-- getCollaborativeRecommendations: for a user without a profile or
    without liked videos delegate to the popularity fallback; otherwise
    accumulate similarity-weighted candidate scores over the similar
    users, sort descending, keep the top limit, and join each candidate id
    with the full catalogue record, silently dropping ids that are absent
    from the catalogue. -/
def getCollaborativeRecommendations (st : EngineState)
    (catalogue : List Video) (userId : String) (limit : ℕ) :
    List (Video × ℚ) :=
  match lookupProfile st userId with
  | none => getPopularRecommendations catalogue limit
  | some userPrefs =>
      if userPrefs.likedVideos.length = 0 then
        getPopularRecommendations catalogue limit
      else
        let similarUsers := findSimilarUsers st userId
        let candidateVideos := accumCandidates st userPrefs similarUsers
        ((sortByDesc (fun p => p.2) candidateVideos).take limit).filterMap
          (fun p => (catalogue.find? (fun v => v.id = p.1)).map
            (fun v => (v, p.2)))

/-- One Map.prototype.set step of the hybrid merge, keyed by video id. -/
def mapSetVid (m : List (String × (Video × ℚ))) (k : String)
    (v : Video × ℚ) : List (String × (Video × ℚ)) :=
  if m.any (fun p => p.1 = k) then
    m.map (fun p => if p.1 = k then (k, v) else p)
  else m ++ [(k, v)]

/-- getHybridRecommendations: fetch collaborative and content-based lists
    with limit * 2 each — the content-based call receives the userId as
    its reference-video id argument, exactly as in the source — then merge
    by video id with weights 0.6 and 0.4, sort descending by the combined
    score and keep the top limit. -/
def getHybridRecommendations (st : EngineState) (catalogue : List Video)
    (userId : String) (limit : ℕ) : List (Video × ℚ) :=
  let collaborativeRecs := getCollaborativeRecommendations st catalogue userId (limit * 2)
  let contentBasedRecs := getContentBasedRecommendations catalogue userId (limit * 2)
  let m1 := collaborativeRecs.foldl (fun m p =>
    mapSetVid m p.1.id (p.1, p.2 * 0.6)) []
  let m2 := contentBasedRecs.foldl (fun m p =>
    match m.find? (fun q => q.1 = p.1.id) with
    | some existing => mapSetVid m p.1.id (existing.2.1, existing.2.2 + p.2 * 0.4)
    | none => mapSetVid m p.1.id (p.1, p.2 * 0.4)) m1
  (sortByDesc (fun p => p.2) (m2.map Prod.snd)).take limit

/-- getRecentActivityRecommendations: for a user with viewed videos,
    collect the channels of the viewed catalogue videos, take the
    catalogue videos from those channels that the user has neither viewed
    nor disliked, and rank them by popularityScore. -/
def getRecentActivityRecommendations (st : EngineState)
    (catalogue : List Video) (userId : String) (limit : ℕ) :
    List (Video × ℚ) :=
  match lookupProfile st userId with
  | none => getPopularRecommendations catalogue limit
  | some userPrefs =>
      if userPrefs.viewedVideos.length = 0 then
        getPopularRecommendations catalogue limit
      else
        let viewedChannels := userPrefs.viewedVideos.foldl (fun acc videoId =>
          match catalogue.find? (fun v => v.id = videoId) with
          | some video => addSet acc video.channelName
          | none => acc) []
        let candidateVideos := catalogue.filter (fun video =>
          video.channelName ∈ viewedChannels ∧
          video.id ∉ userPrefs.viewedVideos ∧
          video.id ∉ userPrefs.dislikedVideos)
        ((sortByDesc (fun v => v.popularityScore) candidateVideos).take limit).map
          (fun v => (v, v.popularityScore))

/-! ## videoDatabase.js: categorization and app-format transformation -/

/-- categorizeVideo of videoDatabase.js: keyword-based category routing on
    the joined lower-cased tags, the title and the channel name. -/
def categorizeVideo (video : Video) : String :=
  let tags := lowerStr (String.intercalate " " video.videoTags)
  let title := lowerStr video.title
  let channelName := lowerStr video.channelName
  if strContains tags "music" ∨ strContains tags "song" ∨ strContains tags "album" ∨
     strContains title "music video" ∨ strContains title "official video" ∨
     strContains channelName "vevo" ∨ strContains channelName "music" then "Music"
  else if strContains tags "gaming" ∨ strContains tags "game" ∨ strContains tags "playthrough" ∨
     strContains title "gameplay" ∨ strContains title "gaming" ∨
     strContains channelName "gaming" ∨ strContains channelName "games" then "Gaming"
  else if strContains tags "news" ∨ strContains tags "politics" ∨ strContains tags "breaking" ∨
     strContains title "news" ∨ strContains title "breaking" ∨
     strContains channelName "news" ∨ strContains channelName "cnn" ∨
     strContains channelName "fox" then "News & Politics"
  else if strContains tags "education" ∨ strContains tags "tutorial" ∨ strContains tags "learn" ∨
     strContains title "how to" ∨ strContains title "tutorial" ∨ strContains title "learn" ∨
     strContains channelName "education" ∨ strContains channelName "tutorial" then "Education"
  else if strContains tags "science" ∨ strContains tags "tech" ∨ strContains tags "technology" ∨
     strContains title "science" ∨ strContains title "tech" ∨ strContains title "ai" ∨
     strContains channelName "science" ∨ strContains channelName "tech" then "Science & Technology"
  else if strContains tags "sports" ∨ strContains tags "football" ∨ strContains tags "basketball" ∨
     strContains title "sports" ∨ strContains title "nfl" ∨ strContains title "nba" ∨
     strContains channelName "sports" ∨ strContains channelName "espn" then "Sports"
  else if strContains tags "travel" ∨ strContains tags "vlog" ∨ strContains tags "lifestyle" ∨
     strContains title "travel" ∨ strContains title "vlog" ∨
     strContains channelName "travel" ∨ strContains channelName "vlog" then "Travel & Events"
  else if strContains tags "howto" ∨ strContains tags "style" ∨ strContains tags "beauty" ∨
     strContains title "how to" ∨ strContains title "tutorial" ∨
     strContains channelName "howto" ∨ strContains channelName "beauty" then "Howto & Style"
  else if strContains tags "vlog" ∨ strContains tags "blog" ∨ strContains tags "personal" ∨
     strContains title "vlog" ∨ strContains title "my" ∨
     strContains channelName "vlog" ∨ strContains channelName "blog" then "People & Blogs"
  else "Entertainment & Comedy"

/-- mapCategory of videoDatabase.js: the four-entry lookup table with
    default entertainment. -/
def mapCategory (dbCategory : String) : String :=
  if dbCategory = "Entertainment & Comedy" then "entertainment"
  else if dbCategory = "Gaming" then "gaming"
  else if dbCategory = "Vlogs & Lifestyle" then "travel"
  else if dbCategory = "Education & How-To" then "tech"
  else "entertainment"

/-- The video record in app format, as produced by
    transformCSVVideoToAppFormat. Presentation fields derived from
    external URL and wall-clock date helpers (avatar, src, thumbnail,
    publishedAt, age) and the daily ranking passthrough fields are
    omitted; the fields the claims read, including the
    nondeterministically generated key and duration, are kept. -/
structure AppVideo where
  id : String
  key : String
  creator : String
  handle : String
  caption : String
  description : String
  category : String
  originalCategory : String
  isFollowed : Bool
  views : ℕ
  likes : ℕ
  comments : ℕ
  shares : ℕ
  duration : String
  engagementRate : ℚ
  popularityScore : ℚ
  trendingScore : ℚ
  videoTags : List String
  deriving DecidableEq

/-- The per-call nondeterministic inputs of
    transformCSVVideoToAppFormat: now is Date.now(), r1 and r2 the two
    Math.random() draws of generateRandomDuration, and rSuffix the
    Math.random() draw whose base-36 rendering becomes the unique-key
    suffix (abstracted here as a numeric draw rendered in decimal). -/
structure Entropy where
  now : ℕ
  r1 : ℚ
  r2 : ℚ
  rSuffix : ℕ
  deriving DecidableEq

/-- Remove every whitespace character, as the replace of the handle
    computation does. -/
def removeWs (s : String) : String :=
  String.mk (s.toList.filter (fun c => ¬ c.isWhitespace))

/-- generateRandomDuration: random minutes in 1..20 and seconds in 0..59,
    rendered minutes:seconds with the seconds zero-padded to two digits. -/
def generateRandomDuration (r1 r2 : ℚ) : String :=
  let minutes := (Int.floor (r1 * 20)).toNat + 1
  let seconds := (Int.floor (r2 * 60)).toNat
  let secondsStr := toString seconds
  toString minutes ++ ":" ++ (if secondsStr.length < 2 then "0" ++ secondsStr else secondsStr)

/-- transformCSVVideoToAppFormat of videoDatabase.js: validate the
    required id, title and channelName fields (returning null when any is
    missing), then build the app-format record. The unique key embeds
    Date.now() and a Math.random() draw. shares is the floor of a tenth
    of the comment count. -/
def transformCSVVideoToAppFormat (e : Entropy) (csvVideo : Video) :
    Option AppVideo :=
  if csvVideo.id = "" ∨ csvVideo.title = "" ∨ csvVideo.channelName = "" then
    none
  else
    some
      { id := csvVideo.id
      , key := csvVideo.id ++ "_" ++ toString e.now ++ "_" ++ toString e.rSuffix
      , creator := if csvVideo.channelName = "" then "Unknown Channel" else csvVideo.channelName
      , handle := "@" ++ removeWs (lowerStr (if csvVideo.channelName = "" then "unknown" else csvVideo.channelName))
      , caption := if csvVideo.title = "" then "Untitled" else csvVideo.title
      , description := csvVideo.description
      , category := mapCategory (categorizeVideo csvVideo)
      , originalCategory := categorizeVideo csvVideo
      , isFollowed := false
      , views := csvVideo.viewCount
      , likes := csvVideo.likeCount
      , comments := csvVideo.commentCount
      , shares := csvVideo.commentCount / 10
      , duration := generateRandomDuration e.r1 e.r2
      , engagementRate := csvVideo.engagementRate
      , popularityScore := csvVideo.popularityScore
      , trendingScore := csvVideo.trendingScore
      , videoTags := csvVideo.videoTags }

/-- The map-transform-filter pipeline applied to a recommendation list:
    each element is transformed with its own fresh entropy (indexed by
    position) and null results are dropped. -/
def transformList (ent : ℕ → Entropy) (l : List Video) : List AppVideo :=
  l.enum.filterMap (fun ie => transformCSVVideoToAppFormat (ent ie.1) ie.2)

/-- Re-applying transformCSVVideoToAppFormat to an already-transformed
    app-format record, as the popular, trending, content-fallback and
    default branches of the getRecommendations catch path do: the
    validation reads the title and channelName properties, which
    app-format records no longer carry (they were renamed to caption and
    creator), so the check fails and every record maps to null. -/
def retransformAppFormat (_a : AppVideo) : Option AppVideo := none

/-- getMostPopularVideos on the CSV fallback path: the catalogue sorted
    descending by popularityScore, truncated, transformed to app format. -/
def getMostPopularVideosCSV (catalogue : List Video) (count : ℕ)
    (ent : ℕ → Entropy) : List AppVideo :=
  transformList ent ((sortByDesc (fun v => v.popularityScore) catalogue).take count)

/-- getTrendingVideos on the CSV fallback path: the catalogue sorted
    descending by trendingScore, truncated, transformed to app format. -/
def getTrendingVideosCSV (catalogue : List Video) (count : ℕ)
    (ent : ℕ → Entropy) : List AppVideo :=
  transformList ent ((sortByDesc (fun v => v.trendingScore) catalogue).take count)

/-- getRecommendations of videoDatabase.js on the CSV fallback path (the
    backend API is an external collaborator; when it is unavailable the
    catch branch dispatches to the local recommendation engine). The
    collaborative, content, hybrid and recent strategies transform the raw
    engine output once; the popular, trending and default strategies
    receive already-transformed records from getMostPopularVideos or
    getTrendingVideos and re-transform them, which nullifies every record
    (see retransformAppFormat). -/
def getRecommendationsCSV (st : EngineState) (catalogue : List Video)
    (userId ty : String) (count : ℕ) (ent : ℕ → Entropy) : List AppVideo :=
  if ty = "collaborative" then
    transformList ent ((getCollaborativeRecommendations st catalogue userId count).map Prod.fst)
  else if ty = "content" then
    match lookupProfile st userId with
    | some userPrefs =>
        match userPrefs.likedVideos with
        | likedVideoId :: _ =>
            transformList ent ((getContentBasedRecommendations catalogue likedVideoId count).map Prod.fst)
        | [] => (getMostPopularVideosCSV catalogue count ent).filterMap retransformAppFormat
    | none => (getMostPopularVideosCSV catalogue count ent).filterMap retransformAppFormat
  else if ty = "hybrid" then
    transformList ent ((getHybridRecommendations st catalogue userId count).map Prod.fst)
  else if ty = "recent" then
    transformList ent ((getRecentActivityRecommendations st catalogue userId count).map Prod.fst)
  else if ty = "popular" then
    (getMostPopularVideosCSV catalogue count ent).filterMap retransformAppFormat
  else if ty = "trending" then
    (getTrendingVideosCSV catalogue count ent).filterMap retransformAppFormat
  else
    (getMostPopularVideosCSV catalogue count ent).filterMap retransformAppFormat

/-! ## Relevance scoring: the caption-weighted preset
    (calculateRelevanceScore of videoDatabase.js; the query arrives
    already lower-cased from performSearch). -/

/-- calculateRelevanceScore: split the query on spaces, and for each
    non-empty query word add 10 for a caption match, 5 for a description
    match, 2 for a creator match and 1 for a category match, each tested
    by lower-cased substring containment. -/
def calculateRelevanceScore (video : AppVideo) (query : String) : ℕ :=
  let queryWords := (jsSplit query ' ').filter (fun w => w.length > 0)
  queryWords.foldl (fun score word =>
    let score := if strContains (lowerStr video.caption) word then score + 10 else score
    let score := if strContains (lowerStr video.description) word then score + 5 else score
    let score := if strContains (lowerStr video.creator) word then score + 2 else score
    if strContains (lowerStr video.category) word then score + 1 else score) 0

/-! ## Relevance scoring: the field-weighted preset
    (the search route of backend/routes/csv.js). -/

/-- A raw CSV row as the wire-level search endpoint sees it: the fields
    its scoring reads (tags is the raw comma-separated tag string). -/
structure CsvRow where
  title : String
  description : String
  channelTitle : String
  tags : String
  deriving DecidableEq

/-- The relevance score of the search route: 100 for the full lower-cased
    query occurring in the title, 50 per query word in the title, 30 for
    the full query occurring in the channel name, 10 per query word in the
    description, 20 per query word in the tags string. -/
def csvSearchScore (video : CsvRow) (searchQuery : String) : ℕ :=
  let searchTerm := lowerStr searchQuery
  let searchWords := (jsSplit searchTerm ' ').filter (fun w => w.length > 0)
  let title := lowerStr video.title
  let description := lowerStr video.description
  let channel := lowerStr video.channelTitle
  let tags := lowerStr video.tags
  let s : ℕ := if strContains title searchTerm then 100 else 0
  let s := searchWords.foldl (fun acc w => if strContains title w then acc + 50 else acc) s
  let s := if strContains channel searchTerm then s + 30 else s
  let s := searchWords.foldl (fun acc w => if strContains description w then acc + 10 else acc) s
  searchWords.foldl (fun acc w => if strContains tags w then acc + 20 else acc) s

/-- The filtered, relevance-ordered result list of the search route
    (before pagination): videos scored, zero-score entries removed, the
    rest sorted descending by score. -/
def csvSearchResults (videos : List CsvRow) (q : String) : List (CsvRow × ℕ) :=
  sortByDesc (fun p => p.2)
    ((videos.map (fun v => (v, csvSearchScore v q))).filter (fun p => p.2 > 0))

/-! ## Specification-side definitions

Each definition below renders a sentence of the specification as a Lean
definition, named spec..., for comparison against the corresponding
source-derived definition above. -/

/-- The specification text of claim C2 as written: the popularity
    fallback returns the catalogue sorted descending by popularityScore
    alone, truncated to the top limit entries. -/
def specPopular (catalogue : List Video) (limit : ℕ) : List Video :=
  (sortByDesc (fun v => v.popularityScore) catalogue).take limit

/-- The specification text of claim C7 as written: the caption-weighted
    relevance score with a flag bonus of 10 for the full query occurring
    in the title, plus 10 / 5 / 2 / 1 per query word found in the title,
    description, channel name and category. -/
def specCaptionScoreClaim (video : AppVideo) (query : String) : ℕ :=
  let ws := (jsSplit query ' ').filter (fun w => w.length > 0)
  (if strContains (lowerStr video.caption) query then 10 else 0) +
  10 * (ws.filter (fun w => strContains (lowerStr video.caption) w)).length +
  5 * (ws.filter (fun w => strContains (lowerStr video.description) w)).length +
  2 * (ws.filter (fun w => strContains (lowerStr video.creator) w)).length +
  (ws.filter (fun w => strContains (lowerStr video.category) w)).length

/-- The caption-weighted relevance score as the source computes it,
    written as a closed formula: 10 / 5 / 2 / 1 per query word found in
    the title, description, channel name and category, with no separate
    full-query flag. -/
def specCaptionScoreWords (video : AppVideo) (query : String) : ℕ :=
  let ws := (jsSplit query ' ').filter (fun w => w.length > 0)
  10 * (ws.filter (fun w => strContains (lowerStr video.caption) w)).length +
  5 * (ws.filter (fun w => strContains (lowerStr video.description) w)).length +
  2 * (ws.filter (fun w => strContains (lowerStr video.creator) w)).length +
  (ws.filter (fun w => strContains (lowerStr video.category) w)).length

/-- The specification text of claim C8 as written: the field-weighted
    score is 100 for the full lower-cased query in the title, 50 per query
    word in the title, 30 for the full query in the channel name, 10 per
    query word in the description and 20 per query word in the tags. -/
def specFieldScore (v : CsvRow) (q : String) : ℕ :=
  let searchTerm := lowerStr q
  let ws := (jsSplit searchTerm ' ').filter (fun w => w.length > 0)
  (if strContains (lowerStr v.title) searchTerm then 100 else 0) +
  50 * (ws.filter (fun w => strContains (lowerStr v.title) w)).length +
  (if strContains (lowerStr v.channelTitle) searchTerm then 30 else 0) +
  10 * (ws.filter (fun w => strContains (lowerStr v.description) w)).length +
  20 * (ws.filter (fun w => strContains (lowerStr v.tags) w)).length

/-- The specification text of claim C9 as written: the video similarity
    is the weighted sum of channel match (0.4), tag Jaccard (0.3, defined
    as 0 when the union is empty), title word overlap (0.2) and
    engagement closeness (0.1), divided by the total weight mass 1. -/
def specVideoSimilarity (v1 v2 : Video) : ℚ :=
  let tags1 := mkSet v1.videoTags
  let tags2 := mkSet v2.videoTags
  let jaccard : ℚ :=
    if (mkSet (tags1 ++ tags2)).length = 0 then 0
    else ((mkSet (tags1.filter (fun x => x ∈ tags2))).length : ℚ) /
      ((mkSet (tags1 ++ tags2)).length : ℚ)
  ((if v1.channelName = v2.channelName then 0.4 else 0) +
    jaccard * 0.3 +
    calculateTextSimilarity v1.title v2.title * 0.2 +
    max 0 (1 - |v1.engagementRate - v2.engagementRate|) * 0.1) / 1

/-- JavaScript String.prototype.trim: remove leading and trailing
    whitespace (used by the search route to reject blank queries). -/
def jsTrim (s : String) : String :=
  String.mk (((s.toList.dropWhile Char.isWhitespace).reverse.dropWhile
    Char.isWhitespace).reverse)

/-! ## Concrete sample records used by witnesses and counterexamples -/

/-- Build a catalogue video record from the fields the claims vary. -/
def mkVideo (i ch : String) (tg : List String) (t : String)
    (pop tr eng : ℚ) : Video :=
  { id := i, title := t, channelName := ch, description := "", videoTags := tg
  , category := "", viewCount := 0, likeCount := 0, commentCount := 0
  , publishDate := "", engagementRate := eng, popularityScore := pop
  , trendingScore := tr }

/-- A video whose popularityScore is high but whose trendingScore is 0. -/
def videoA : Video := mkVideo "a" "C" [] "t a" 10 0 0

/-- A video whose popularityScore is lower but whose trendingScore lifts
    its blended score above videoA. -/
def videoB : Video := mkVideo "b" "C" [] "t b" 9 20 0

/-- An app-format record whose caption contains the word cat. -/
def videoCat : AppVideo :=
  { id := "c1", key := "", creator := "", handle := "", caption := "Cat videos"
  , description := "", category := "", originalCategory := "", isFollowed := false
  , views := 0, likes := 0, comments := 0, shares := 0, duration := ""
  , engagementRate := 0, popularityScore := 0, trendingScore := 0, videoTags := [] }

/-- An app-format record matching the query only in its description. -/
def videoDog : AppVideo :=
  { id := "c2", key := "", creator := "", handle := "", caption := "Dog videos"
  , description := "cats are cute", category := "", originalCategory := ""
  , isFollowed := false, views := 0, likes := 0, comments := 0, shares := 0
  , duration := "", engagementRate := 0, popularityScore := 0, trendingScore := 0
  , videoTags := [] }

/-- A CSV row whose title contains the word cat. -/
def rowCat : CsvRow :=
  { title := "Cat videos", description := "", channelTitle := "PetsTV", tags := "cat,animal" }

/-- A catalogue video with a non-empty tag set and title. -/
def videoV1 : Video := mkVideo "v1" "C" ["x"] "t v1" 1 0 0

/-- A second video sharing channel and tags with videoV1. -/
def videoV2 : Video := mkVideo "v2" "C" ["x"] "t v2" 2 0 0

/-- A dissimilar video with dominant popularity and trending scores. -/
def videoV3 : Video := mkVideo "v3" "Z" [] "t v3" 100 100 0

/-- The catalogue of the hybrid-recommender failing input. -/
def catalogueC3 : List Video := [videoV1, videoV2, videoV3]

/-- An engine state in which user u1 has liked exactly videoV1. -/
def stateC3 : EngineState :=
  [("u1", { emptyProfile with likedVideos := ["v1"], preferences := [("v1", 8)] })]

/-- Catalogue videos for the collaborative witnesses. -/
def videoW1 : Video := mkVideo "w1" "C" [] "t w1" 1 0 0

/-- Second collaborative catalogue video. -/
def videoW2 : Video := mkVideo "w2" "C" [] "t w2" 2 0 0

/-- The profile of user u1: liked exactly w1. -/
def profileU1 : Profile :=
  { emptyProfile with likedVideos := ["w1"], preferences := [("w1", 8)] }

/-- The profile of user u2: liked w1 and w2. -/
def profileU2 : Profile :=
  { emptyProfile with likedVideos := ["w1", "w2"], preferences := [("w1", 8), ("w2", 8)] }

/-- An engine state with two users: u1 liked w1, u2 liked w1 and w2. -/
def stateC4 : EngineState := [("u1", profileU1), ("u2", profileU2)]

/-- The similarity contribution of one entry of the similar-user list to
    the collaborative candidate score of video v: its similarity when the
    profile looked up for it likes v and v passes the neither-liked-nor-
    disliked restriction of the target user, and 0 otherwise. -/
def collabContrib (st : EngineState) (userPrefs : Profile) (v : String)
    (su : String × ℚ) : ℚ :=
  match lookupProfile st su.1 with
  | some sp =>
      if v ∈ sp.likedVideos ∧ v ∉ userPrefs.likedVideos ∧
          v ∉ userPrefs.dislikedVideos then su.2 else 0
  | none => 0

/-- An entropy stream with Date.now() = 0 and all random draws 0. -/
def entZero : ℕ → Entropy := fun _ => { now := 0, r1 := 0, r2 := 0, rSuffix := 0 }

/-- An entropy stream with Date.now() = 1 and all random draws 0. -/
def entOne : ℕ → Entropy := fun _ => { now := 1, r1 := 0, r2 := 0, rSuffix := 0 }

theorem perm_insertByDesc {α β : Type _} [LinearOrder β] (key : α → β)
    (x : α) (l : List α) : List.Perm (insertByDesc key x l) (x :: l) := by
  induction l with
  | nil => simp [insertByDesc]
  | cons y ys ih =>
      simp only [insertByDesc]
      split
      · exact List.Perm.refl _
      · exact (List.Perm.cons y ih).trans (List.Perm.swap x y ys)

theorem perm_sortByDesc {α β : Type _} [LinearOrder β] (key : α → β)
    (l : List α) : List.Perm (sortByDesc key l) l := by
  induction l with
  | nil => simp [sortByDesc]
  | cons x xs ih =>
      exact (perm_insertByDesc key x (sortByDesc key xs)).trans (ih.cons x)

theorem mem_sortByDesc {α β : Type _} [LinearOrder β] (key : α → β)
    {l : List α} {x : α} : x ∈ sortByDesc key l ↔ x ∈ l :=
  (perm_sortByDesc key l).mem_iff

theorem pairwise_insertByDesc {α β : Type _} [LinearOrder β] (key : α → β)
    (x : α) (l : List α)
    (h : l.Pairwise (fun a b => key b ≤ key a)) :
    (insertByDesc key x l).Pairwise (fun a b => key b ≤ key a) := by
  induction l with
  | nil => simp [insertByDesc]
  | cons y ys ih =>
      simp only [insertByDesc]
      rcases List.pairwise_cons.mp h with ⟨hy, hys⟩
      split
      · rename_i hle
        refine List.pairwise_cons.mpr ⟨?_, h⟩
        intro b hb
        rcases List.mem_cons.mp hb with rfl | hb
        · exact hle
        · exact le_trans (hy b hb) hle
      · rename_i hgt
        refine List.pairwise_cons.mpr ⟨?_, ih hys⟩
        intro b hb
        rcases List.mem_cons.mp ((perm_insertByDesc key x ys).mem_iff.mp hb) with rfl | hb
        · exact le_of_not_le hgt
        · exact hy b hb

theorem pairwise_sortByDesc {α β : Type _} [LinearOrder β] (key : α → β)
    (l : List α) :
    (sortByDesc key l).Pairwise (fun a b => key b ≤ key a) := by
  induction l with
  | nil => simp [sortByDesc]
  | cons x xs ih => exact pairwise_insertByDesc key x _ ih

/-! ## Basic lemmas about the JavaScript collection models -/

theorem mem_addSet {l : List String} {x y : String} :
    y ∈ addSet l x ↔ y ∈ l ∨ y = x := by
  unfold addSet
  split
  · rename_i hx
    constructor
    · exact Or.inl
    · rintro (h | rfl)
      · exact h
      · exact hx
  · simp

theorem nodup_addSet {l : List String} (x : String) (h : l.Nodup) :
    (addSet l x).Nodup := by
  unfold addSet
  split
  · exact h
  · rename_i hx
    simpa [List.nodup_append] using ⟨h, hx⟩

theorem mem_foldl_addSet {l acc : List String} {y : String} :
    y ∈ l.foldl addSet acc ↔ y ∈ acc ∨ y ∈ l := by
  induction l generalizing acc with
  | nil => simp
  | cons x xs ih =>
      simp only [List.foldl_cons, ih, mem_addSet]
      constructor
      · rintro ((h | rfl) | h)
        · exact Or.inl h
        · exact Or.inr (List.mem_cons_self _ _)
        · exact Or.inr (List.mem_cons_of_mem _ h)
      · rintro (h | h)
        · exact Or.inl (Or.inl h)
        · rcases List.mem_cons.mp h with rfl | h
          · exact Or.inl (Or.inr rfl)
          · exact Or.inr h

theorem mem_mkSet {l : List String} {y : String} : y ∈ mkSet l ↔ y ∈ l := by
  unfold mkSet
  simp [mem_foldl_addSet]

theorem nodup_foldl_addSet {l acc : List String} (h : acc.Nodup) :
    (l.foldl addSet acc).Nodup := by
  induction l generalizing acc with
  | nil => exact h
  | cons x xs ih => exact ih (nodup_addSet x h)

theorem nodup_mkSet (l : List String) : (mkSet l).Nodup :=
  nodup_foldl_addSet List.nodup_nil

theorem foldl_addSet_of_subset {l acc : List String}
    (h : ∀ x ∈ l, x ∈ acc) : l.foldl addSet acc = acc := by
  induction l with
  | nil => rfl
  | cons x xs ih =>
      have hx : addSet acc x = acc := by
        unfold addSet
        simp [h x (List.mem_cons_self _ _)]
      simp only [List.foldl_cons, hx]
      exact ih (fun y hy => h y (List.mem_cons_of_mem _ hy))

theorem foldl_addSet_disjoint {l acc : List String} (hacc : acc.Nodup)
    (hdisj : ∀ x ∈ l, x ∉ acc) (hl : l.Nodup) :
    l.foldl addSet acc = acc ++ l := by
  induction l generalizing acc with
  | nil => simp
  | cons x xs ih =>
      have hx : addSet acc x = acc ++ [x] := by
        unfold addSet
        simp [hdisj x (List.mem_cons_self _ _)]
      rcases List.nodup_cons.mp hl with ⟨hxs, hxs'⟩
      simp only [List.foldl_cons, hx]
      rw [ih (by simpa [List.nodup_append] using ⟨hacc, fun h => hdisj x (List.mem_cons_self _ _) h⟩)
        (fun y hy => by
          simp only [List.mem_append, List.mem_singleton]
          rintro (h | rfl)
          · exact hdisj y (List.mem_cons_of_mem _ hy) h
          · exact hxs hy)
        hxs']
      simp

theorem mkSet_eq_self {l : List String} (h : l.Nodup) : mkSet l = l := by
  unfold mkSet
  simpa using foldl_addSet_disjoint List.nodup_nil (by simp) h

theorem mkSet_append_self {l : List String} (h : l.Nodup) :
    mkSet (l ++ l) = l := by
  have h2 : mkSet (l ++ l) = l.foldl addSet (mkSet l) := by
    unfold mkSet
    rw [List.foldl_append]
  rw [h2, mkSet_eq_self h]
  exact foldl_addSet_of_subset (fun x hx => hx)

theorem mkSet_ne_nil {l : List String} (h : l ≠ []) : mkSet l ≠ [] := by
  rcases List.exists_mem_of_ne_nil l h with ⟨x, hx⟩
  intro hnil
  have := mem_mkSet.mpr hx
  rw [hnil] at this
  exact List.not_mem_nil x this

theorem filter_mem_self (l : List String) :
    l.filter (fun x => x ∈ l) = l :=
  List.filter_eq_self.mpr (fun x hx => by simpa using hx)

/-! ## Lemmas about the association-list Map model -/

theorem mapGetD_nil (k : String) : mapGetD [] k = 0 := rfl

theorem mapGetD_cons (a : String × ℚ) (m : List (String × ℚ)) (k : String) :
    mapGetD (a :: m) k = if a.1 = k then a.2 else mapGetD m k := by
  by_cases h : a.1 = k
  · simp [mapGetD, List.find?_cons, h]
  · simp [mapGetD, List.find?_cons, h]

theorem mapGetD_map_update_self {m : List (String × ℚ)} {k : String}
    (v : ℚ) (h : m.any (fun p => p.1 = k)) :
    mapGetD (m.map (fun p => if p.1 = k then (k, v) else p)) k = v := by
  induction m with
  | nil => simp at h
  | cons a rest ih =>
      by_cases hak : a.1 = k
      · simp [mapGetD_cons, hak]
      · simp only [List.any_cons, Bool.or_eq_true, decide_eq_true_eq] at h
        rcases h with h | h
        · exact absurd h hak
        · simp only [List.map_cons, if_neg hak, mapGetD_cons, if_neg hak]
          exact ih h

theorem mapGetD_map_update_ne {m : List (String × ℚ)} {k k' : String}
    (v : ℚ) (h : k' ≠ k) :
    mapGetD (m.map (fun p => if p.1 = k then (k, v) else p)) k' =
      mapGetD m k' := by
  induction m with
  | nil => simp
  | cons a rest ih =>
      by_cases hak : a.1 = k
      · have h1 : ¬(k = k') := fun hh => h hh.symm
        simpa [mapGetD_cons, hak, h1] using ih
      · simp only [List.map_cons, if_neg hak, mapGetD_cons]
        rw [ih]

theorem mapGetD_mapSet (m : List (String × ℚ)) (k k' : String) (v : ℚ) :
    mapGetD (mapSet m k v) k' = if k' = k then v else mapGetD m k' := by
  unfold mapSet
  split
  · rename_i hany
    by_cases hk : k' = k
    · subst hk
      rw [mapGetD_map_update_self v hany, if_pos rfl]
    · rw [mapGetD_map_update_ne v hk, if_neg hk]
  · rename_i hany
    induction m with
    | nil =>
        simp only [List.nil_append, mapGetD_cons, mapGetD_nil]
        by_cases hk : k' = k
        · simp [hk]
        · rw [if_neg (fun hh => hk (Eq.symm hh)), if_neg hk]
    | cons a rest ih =>
        simp only [List.any_cons, Bool.or_eq_true, decide_eq_true_eq, not_or] at hany
        simp only [List.cons_append, mapGetD_cons]
        by_cases hak : a.1 = k'
        · have : ¬(k' = k) := by
            intro hh
            exact hany.1 (hak.trans hh)
          simp [hak, this]
        · simp only [if_neg hak]
          exact ih (by
            intro hra
            rcases List.any_eq_true.mp hra with ⟨p, hp, hpk⟩
            exact hany.2 (List.any_eq_true.mpr ⟨p, hp, hpk⟩))

theorem keys_mapSet (m : List (String × ℚ)) (k : String) (v : ℚ) :
    (mapSet m k v).map Prod.fst =
      if m.any (fun p => p.1 = k) then m.map Prod.fst
      else m.map Prod.fst ++ [k] := by
  unfold mapSet
  split
  · rename_i hany
    rw [List.map_map]
    apply List.map_congr_left
    intro p hp
    by_cases hpk : p.1 = k
    · simp [hpk]
    · simp [hpk]
  · simp

theorem mem_keys_mapSet {m : List (String × ℚ)} {k k' : String} {v : ℚ}
    (h : k' ∈ (mapSet m k v).map Prod.fst) :
    k' ∈ m.map Prod.fst ∨ k' = k := by
  rw [keys_mapSet] at h
  split at h
  · exact Or.inl h
  · rcases List.mem_append.mp h with h | h
    · exact Or.inl h
    · exact Or.inr (List.mem_singleton.mp h)

theorem nodup_keys_mapSet {m : List (String × ℚ)} {k : String} {v : ℚ}
    (h : (m.map Prod.fst).Nodup) :
    ((mapSet m k v).map Prod.fst).Nodup := by
  rw [keys_mapSet]
  split
  · exact h
  · rename_i hany
    refine List.nodup_append.mpr ⟨h, List.nodup_singleton _, ?_⟩
    intro a ha hb
    rcases List.mem_map.mp ha with ⟨p, hp, rfl⟩
    rw [List.mem_singleton] at hb
    exact hany (List.any_eq_true.mpr ⟨p, hp, by simp [hb]⟩)

theorem mapGetD_of_mem_nodup {m : List (String × ℚ)} {k : String} {s : ℚ}
    (hmem : (k, s) ∈ m) (hnd : (m.map Prod.fst).Nodup) :
    mapGetD m k = s := by
  induction m with
  | nil => simp at hmem
  | cons a rest ih =>
      rw [List.map_cons, List.nodup_cons] at hnd
      rcases List.mem_cons.mp hmem with rfl | hmem'
      · simp [mapGetD_cons]
      · rw [mapGetD_cons]
        have : ¬(a.1 = k) := by
          intro hak
          exact hnd.1 (hak ▸ List.mem_map.mpr ⟨(k, s), hmem', rfl⟩)
        rw [if_neg this]
        exact ih hmem' hnd.2

/-! ## Lemmas about profile lookup -/

theorem lookupProfile_of_mem_nodup {st : EngineState} {u : String}
    {p : Profile} (hnd : (st.map Prod.fst).Nodup) (hmem : (u, p) ∈ st) :
    lookupProfile st u = some p := by
  induction st with
  | nil => simp at hmem
  | cons a rest ih =>
      rw [List.map_cons, List.nodup_cons] at hnd
      rcases List.mem_cons.mp hmem with rfl | hmem'
      · simp [lookupProfile]
      · unfold lookupProfile
        rw [List.find?_cons]
        split
        · rename_i h
          simp only [decide_eq_true_eq] at h
          exact absurd (h ▸ List.mem_map.mpr ⟨(u, p), hmem', rfl⟩) hnd.1
        · exact ih hnd.2 hmem'

theorem mem_of_lookupProfile {st : EngineState} {u : String} {p : Profile}
    (h : lookupProfile st u = some p) : (u, p) ∈ st := by
  unfold lookupProfile at h
  rcases Option.map_eq_some'.mp h with ⟨q, hq, rfl⟩
  have hqm := List.mem_of_find?_eq_some hq
  have hqp := List.find?_some hq
  simp only [decide_eq_true_eq] at hqp
  subst hqp
  simpa using hqm

/-! ## Accumulating folds -/

theorem foldl_add_ite {α : Type _} (p : α → Bool) (c : ℕ) (l : List α)
    (init : ℕ) :
    l.foldl (fun acc w => if p w then acc + c else acc) init =
      init + c * (l.filter p).length := by
  induction l generalizing init with
  | nil => simp
  | cons x xs ih =>
      simp only [List.foldl_cons, List.filter_cons]
      by_cases hx : p x
      · simp only [hx, if_true]
        rw [ih]
        simp only [List.length_cons]
        ring
      · simp only [hx, Bool.false_eq_true, if_false]
        rw [ih]

/-! ## Sorting commutes with key-preserving maps -/

theorem insertByDesc_map {α γ β : Type _} [LinearOrder β] (key : γ → β)
    (f : α → γ) (x : α) (l : List α) :
    insertByDesc key (f x) (l.map f) =
      (insertByDesc (fun a => key (f a)) x l).map f := by
  induction l with
  | nil => simp [insertByDesc]
  | cons y ys ih =>
      simp only [List.map_cons, insertByDesc]
      split
      · simp
      · simp [ih]

theorem sortByDesc_map {α γ β : Type _} [LinearOrder β] (key : γ → β)
    (f : α → γ) (l : List α) :
    sortByDesc key (l.map f) = (sortByDesc (fun a => key (f a)) l).map f := by
  induction l with
  | nil => simp [sortByDesc]
  | cons x xs ih =>
      simp only [List.map_cons, sortByDesc, ih]
      exact insertByDesc_map key f x _

theorem filterMap_const_none {α β : Type _} (l : List α) :
    l.filterMap (fun _ => (none : Option β)) = [] := by
  induction l with
  | nil => rfl
  | cons x xs ih => simp

theorem foldl_caption_step {α : Type _} (p1 p2 p3 p4 : α → Bool) (l : List α)
    (init : ℕ) :
    l.foldl (fun score w =>
      let score := if p1 w then score + 10 else score
      let score := if p2 w then score + 5 else score
      let score := if p3 w then score + 2 else score
      if p4 w then score + 1 else score) init =
      init + 10 * (l.filter p1).length + 5 * (l.filter p2).length +
        2 * (l.filter p3).length + (l.filter p4).length := by
  induction l generalizing init with
  | nil => simp
  | cons x xs ih =>
      simp only [List.foldl_cons, List.filter_cons]
      rw [ih]
      by_cases h1 : p1 x <;> by_cases h2 : p2 x <;> by_cases h3 : p3 x <;>
        by_cases h4 : p4 x <;> simp [h1, h2, h3, h4] <;> omega

/-! ## The claims -/

/-- C1: recording a like and then a dislike for the same video leaves the
    video in BOTH likedVideos and dislikedVideos — the like case of
    addUserPreference never removes the video from dislikedVideos and the
    dislike case never removes it from likedVideos, so the specified
    exclusivity invariant fails; only the preference-score part of the
    claim (min(-2, previous) = -2) holds. Evaluation of the source
    embedding at the failing input of the claim. -/
theorem like_then_dislike_keeps_like :
    (lookupProfile
        (addUserPreference (addUserPreference [] "u" "v" "like" 8) "u" "v" "dislike" 2) "u").map
      (fun p => (p.likedVideos, p.dislikedVideos, mapGetD p.preferences "v")) =
    some (["v"], ["v"], -2) := by
  simp [addUserPreference, applyAction, lookupProfile, emptyProfile, mapSet, mapGetD, addSet]
  norm_num

/-- C6: the addUserPreference switch has no unlike or undislike case, so
    both actions are complete no-ops: after like(8) then unlike(0) the
    video is still in likedVideos (with its score unchanged at 8), and
    after dislike(3) then undislike(0) it is still in dislikedVideos (with
    its score unchanged at -3). Evaluation of the source embedding at the
    failing inputs of the claim. -/
theorem unlike_undislike_noop :
    ((lookupProfile
        (addUserPreference (addUserPreference [] "u" "v" "like" 8) "u" "v" "unlike" 0) "u").map
      (fun p => (p.likedVideos, mapGetD p.preferences "v")) = some (["v"], 8)) ∧
    ((lookupProfile
        (addUserPreference (addUserPreference [] "u" "w" "dislike" 3) "u" "w" "undislike" 0) "u").map
      (fun p => (p.dislikedVideos, mapGetD p.preferences "w")) = some (["w"], -3)) := by
  constructor
  · simp [addUserPreference, applyAction, lookupProfile, emptyProfile, mapSet, mapGetD, addSet]
  · simp [addUserPreference, applyAction, lookupProfile, emptyProfile, mapSet, mapGetD, addSet]

/-- C5: for a user whose profile is absent, or whose likedVideos set is
    empty, getCollaborativeRecommendations returns exactly the popularity
    fallback for the same catalogue and limit; the function is total, so a
    missing user never raises an error. -/
theorem collaborative_cold_start_fallback
    (st : EngineState) (catalogue : List Video) (userId : String) (limit : ℕ)
    (h : lookupProfile st userId = none ∨
      ∃ p, lookupProfile st userId = some p ∧ p.likedVideos = []) :
    getCollaborativeRecommendations st catalogue userId limit =
      getPopularRecommendations catalogue limit := by
  rcases h with h | ⟨p, hp, hl⟩
  · unfold getCollaborativeRecommendations
    rw [h]
  · unfold getCollaborativeRecommendations
    rw [hp]
    simp [hl]

/-- Witness for C5 at a concrete input: a known user with an empty profile
    and an unknown user both fall back to popularity. -/
theorem collaborative_cold_start_fallback_witness :
    (getCollaborativeRecommendations [("u", emptyProfile)] [videoA, videoB] "u" 5 =
      getPopularRecommendations [videoA, videoB] 5) ∧
    (getCollaborativeRecommendations [] [videoA, videoB] "z" 5 =
      getPopularRecommendations [videoA, videoB] 5) :=
  ⟨collaborative_cold_start_fallback _ _ _ _ (Or.inr ⟨emptyProfile, rfl, rfl⟩),
   collaborative_cold_start_fallback _ _ _ _ (Or.inl rfl)⟩

/-- C2 counterexample: on the two-video catalogue videoA (popularityScore
    10, trendingScore 0) and videoB (popularityScore 9, trendingScore 20),
    getPopularRecommendations returns videoB first, while the claimed
    ordering by popularityScore alone would return videoA first — the
    fallback does not sort by popularityScore alone. -/
theorem popular_not_by_popularity_alone :
    (getPopularRecommendations [videoA, videoB] 2).map Prod.fst ≠
      specPopular [videoA, videoB] 2 := by
  have hL : (getPopularRecommendations [videoA, videoB] 2).map Prod.fst = [videoB, videoA] := by
    simp [getPopularRecommendations, sortByDesc, insertByDesc, videoA, videoB, mkVideo]
    norm_num
  have hR : specPopular [videoA, videoB] 2 = [videoA, videoB] := by
    simp [specPopular, sortByDesc, insertByDesc, videoA, videoB, mkVideo]
    norm_num
  rw [hL, hR]
  intro h
  have := List.head_eq_of_cons_eq h
  simp [videoA, videoB, mkVideo] at this

/-- C2 (amended): getPopularRecommendations returns the catalogue sorted
    descending (stably) by the blended score
    trendingScore * 0.4 + popularityScore * 0.6 — not by popularityScore
    alone — truncated to the top limit entries, each paired with its
    blended score; the returned scores are descending. -/
theorem popular_blend_sorted (catalogue : List Video) (limit : ℕ) :
    getPopularRecommendations catalogue limit =
      ((sortByDesc (fun v => v.trendingScore * 0.4 + v.popularityScore * 0.6)
          catalogue).take limit).map
        (fun v => (v, v.trendingScore * 0.4 + v.popularityScore * 0.6)) ∧
    (getPopularRecommendations catalogue limit).Pairwise
      (fun p q => q.2 ≤ p.2) := by
  have hmain : getPopularRecommendations catalogue limit =
      ((sortByDesc (fun v => v.trendingScore * 0.4 + v.popularityScore * 0.6)
          catalogue).take limit).map
        (fun v => (v, v.trendingScore * 0.4 + v.popularityScore * 0.6)) := by
    unfold getPopularRecommendations
    rw [sortByDesc_map (fun p => p.2)
      (fun v => (v, v.trendingScore * 0.4 + v.popularityScore * 0.6)) catalogue]
    rw [List.map_take]
  refine ⟨hmain, ?_⟩
  unfold getPopularRecommendations
  have hp := pairwise_sortByDesc (fun p : Video × ℚ => p.2)
    (catalogue.map (fun v => (v, v.trendingScore * 0.4 + v.popularityScore * 0.6)))
  exact hp.sublist (List.take_sublist _ _)

/-- C7 counterexample: on a video whose caption is Cat videos and the
    query cat, the source scorer yields 10 (one word match in the title),
    while the claimed formula with its additional full-query flag bonus
    yields 20 — the caption-weighted scorer has no occurrence-independent
    full-query bonus. -/
theorem caption_score_no_full_query_flag :
    calculateRelevanceScore videoCat "cat" ≠ specCaptionScoreClaim videoCat "cat" := by
  decide

/-- C7 (amended): under the caption-weighted preset the relevance score is
    the per-word sum alone — 10 per query word in the title, 5 per word in
    the description, 2 per word in the channel name and 1 per word in the
    category, with NO separate full-query flag bonus; consequently, for a
    single-word query, a video matching in the title ranks strictly above
    one matching only in the description. -/
theorem caption_score_per_word :
    (∀ (video : AppVideo) (query : String),
        calculateRelevanceScore video query = specCaptionScoreWords video query) ∧
    (∀ (query : String) (a b : AppVideo) (w : String),
        (jsSplit query ' ').filter (fun x => x.length > 0) = [w] →
        strContains (lowerStr a.caption) w = true →
        strContains (lowerStr b.caption) w = false →
        strContains (lowerStr b.description) w = true →
        strContains (lowerStr b.creator) w = false →
        strContains (lowerStr b.category) w = false →
        calculateRelevanceScore b query < calculateRelevanceScore a query) := by
  have hmain : ∀ (video : AppVideo) (query : String),
      calculateRelevanceScore video query = specCaptionScoreWords video query := by
    intro video query
    unfold calculateRelevanceScore specCaptionScoreWords
    rw [foldl_caption_step]
    simp only [Nat.zero_add]
  refine ⟨hmain, ?_⟩
  intro query a b w hw ha hb1 hb2 hb3 hb4
  have hbscore : calculateRelevanceScore b query = 5 := by
    rw [hmain]
    unfold specCaptionScoreWords
    rw [hw]
    simp [List.filter_cons, hb1, hb2, hb3, hb4]
  have hascore : 10 ≤ calculateRelevanceScore a query := by
    rw [hmain]
    unfold specCaptionScoreWords
    rw [hw]
    simp only [List.filter_cons, List.filter_nil, ha, if_true]
    simp only [List.length_cons, List.length_nil]
    omega
  omega

/-- Witness for C7 at the concrete inputs of the specification example:
    searching cat ranks the title-matching record strictly above the
    description-only record. -/
theorem caption_score_per_word_witness :
    calculateRelevanceScore videoDog "cat" < calculateRelevanceScore videoCat "cat" :=
  caption_score_per_word.2 "cat" videoCat videoDog "cat" (by decide) (by decide)
    (by decide) (by decide) (by decide) (by decide)

theorem splitWsAux_ne_nil (l : List Char) (cur : List Char) (b : Bool) :
    splitWsAux l cur b ≠ [] := by
  induction l generalizing cur b with
  | nil => simp [splitWsAux]
  | cons c rest ih =>
      unfold splitWsAux
      by_cases hc : c.isWhitespace
      · simp only [hc, if_true]
        by_cases hb : b
        · simpa [hb] using ih cur true
        · simp [hb]
      · simpa [hc] using ih (c :: cur) false

theorem jsSplitWs_ne_nil (s : String) : jsSplitWs s ≠ [] :=
  splitWsAux_ne_nil _ _ _

theorem calculateTextSimilarity_self (t : String) :
    calculateTextSimilarity t t = 1 := by
  unfold calculateTextSimilarity
  have hnd := nodup_mkSet (jsSplitWs (lowerStr t))
  have hfil := filter_mem_self (mkSet (jsSplitWs (lowerStr t)))
  have hinter : mkSet ((mkSet (jsSplitWs (lowerStr t))).filter
      (fun x => x ∈ mkSet (jsSplitWs (lowerStr t)))) = mkSet (jsSplitWs (lowerStr t)) := by
    rw [hfil]
    exact mkSet_eq_self hnd
  have huni := mkSet_append_self hnd
  have hne : mkSet (jsSplitWs (lowerStr t)) ≠ [] :=
    mkSet_ne_nil (jsSplitWs_ne_nil (lowerStr t))
  have hlen : 0 < (mkSet (jsSplitWs (lowerStr t))).length := List.length_pos.mpr hne
  simp only [hinter, huni]
  rw [if_pos hlen]
  rw [div_self]
  exact Nat.cast_ne_zero.mpr (Nat.pos_iff_ne_zero.mp hlen)

/-- C9: calculateVideoSimilarity agrees everywhere with the weighted-sum
    formula of the specification — channel match 0.4, tag Jaccard 0.3
    (zero on an empty union), title word overlap 0.2 and engagement
    closeness 0.1, divided by the total weight mass 1 — and a well-formed
    video with non-empty tags and title compared with itself scores
    exactly 1. -/
theorem video_similarity_formula_and_self :
    (∀ v1 v2 : Video, calculateVideoSimilarity v1 v2 = specVideoSimilarity v1 v2) ∧
    (∀ v : Video, v.videoTags ≠ [] → v.title ≠ "" →
      calculateVideoSimilarity v v = 1) := by
  have hformula : ∀ v1 v2 : Video,
      calculateVideoSimilarity v1 v2 = specVideoSimilarity v1 v2 := by
    intro v1 v2
    unfold calculateVideoSimilarity specVideoSimilarity
    by_cases hu : (mkSet (mkSet v1.videoTags ++ mkSet v2.videoTags)).length = 0
    · simp only [hu]
      norm_num
    · have hpos : 0 < (mkSet (mkSet v1.videoTags ++ mkSet v2.videoTags)).length :=
        Nat.pos_of_ne_zero hu
      simp only [if_pos hpos, if_neg hu]
      norm_num
  refine ⟨hformula, ?_⟩
  intro v htags htitle
  unfold calculateVideoSimilarity
  have hnd := nodup_mkSet v.videoTags
  have hfil := filter_mem_self (mkSet v.videoTags)
  have hinter : mkSet ((mkSet v.videoTags).filter
      (fun x => x ∈ mkSet v.videoTags)) = mkSet v.videoTags := by
    rw [hfil]
    exact mkSet_eq_self hnd
  have huni := mkSet_append_self hnd
  have hne : mkSet v.videoTags ≠ [] := mkSet_ne_nil htags
  have hlen : 0 < (mkSet v.videoTags).length := List.length_pos.mpr hne
  simp only [hinter, huni, if_pos hlen, if_pos rfl]
  rw [calculateTextSimilarity_self]
  rw [div_self (Nat.cast_ne_zero.mpr (Nat.pos_iff_ne_zero.mp hlen))]
  norm_num

/-- Witness for C9 at a concrete input: a video with channel C, tag set
    containing x and a non-empty title is perfectly similar to itself. -/
theorem video_similarity_formula_and_self_witness :
    calculateVideoSimilarity videoV1 videoV1 = 1 :=
  video_similarity_formula_and_self.2 videoV1 (by decide) (by decide)

/-- C8: for a non-blank query the field-weighted search endpoint scores
    every video as 100 for the full lower-cased query in the title plus 50
    per query word in the title plus 30 for the full query in the channel
    name plus 10 per query word in the description plus 20 per query word
    in the tags; the result list is a permutation of the strictly
    positively scored videos, every returned score is positive, and the
    scores are sorted descending. -/
theorem field_weighted_search (videos : List CsvRow) (q : String)
    (_hq : jsTrim q ≠ "") :
    (∀ v, csvSearchScore v q = specFieldScore v q) ∧
    List.Perm (csvSearchResults videos q)
      ((videos.map (fun v => (v, csvSearchScore v q))).filter (fun p => p.2 > 0)) ∧
    (∀ p ∈ csvSearchResults videos q, 0 < p.2) ∧
    (csvSearchResults videos q).Pairwise (fun p r => r.2 ≤ p.2) := by
  refine ⟨?_, ?_, ?_, ?_⟩
  · intro v
    unfold csvSearchScore specFieldScore
    rw [foldl_add_ite, foldl_add_ite, foldl_add_ite]
    by_cases hA : strContains (lowerStr v.title) (lowerStr q) <;>
      by_cases hB : strContains (lowerStr v.channelTitle) (lowerStr q) <;>
        simp [hA, hB]
  · unfold csvSearchResults
    exact perm_sortByDesc _ _
  · intro p hp
    unfold csvSearchResults at hp
    have := (perm_sortByDesc (fun p : CsvRow × ℕ => p.2) _).mem_iff.mp hp
    have hmem := List.mem_filter.mp this
    simpa using hmem.2
  · unfold csvSearchResults
    exact pairwise_sortByDesc (fun p : CsvRow × ℕ => p.2) _

/-- Witness for C8 at a concrete input: on the sample row and the query
    cat, the route score equals the claimed weighted formula. -/
theorem field_weighted_search_witness :
    csvSearchScore rowCat "cat" = specFieldScore rowCat "cat" :=
  (field_weighted_search [rowCat] "cat" (by decide)).1 rowCat

end Nexus


namespace Nexus

theorem content_ref_u1_falls_back :
    getContentBasedRecommendations catalogueC3 "u1" (2 * 2) =
      getPopularRecommendations catalogueC3 (2 * 2) := by
  unfold getContentBasedRecommendations
  have h : catalogueC3.find? (fun v => v.id = "u1") = none := by decide
  rw [h]

theorem collab_c3_empty :
    getCollaborativeRecommendations stateC3 catalogueC3 "u1" (2 * 2) = [] := by
  rfl

theorem popular_c3 :
    getPopularRecommendations catalogueC3 (2 * 2) =
      [(videoV3, 100), (videoV2, 1.2), (videoV1, 0.6)] := by
  simp [getPopularRecommendations, sortByDesc, insertByDesc, catalogueC3,
    videoV1, videoV2, videoV3, mkVideo]
  norm_num [insertByDesc]

theorem sim_v1_v2 : calculateVideoSimilarity videoV1 videoV2 = 13/15 := by
  have h1 : mkSet (jsSplitWs (lowerStr "t v1")) = ["t", "v1"] := by decide
  have h2 : mkSet (jsSplitWs (lowerStr "t v2")) = ["t", "v2"] := by decide
  unfold calculateVideoSimilarity calculateTextSimilarity
  simp only [videoV1, videoV2, mkVideo, h1, h2]
  simp [mkSet, addSet]
  norm_num

theorem sim_v1_v3 : calculateVideoSimilarity videoV1 videoV3 = 1/6 := by
  have h1 : mkSet (jsSplitWs (lowerStr "t v1")) = ["t", "v1"] := by decide
  have h2 : mkSet (jsSplitWs (lowerStr "t v3")) = ["t", "v3"] := by decide
  unfold calculateVideoSimilarity calculateTextSimilarity
  simp only [videoV1, videoV3, mkVideo, h1, h2]
  simp [mkSet, addSet]
  norm_num

theorem content_ref_v1 :
    (getContentBasedRecommendations catalogueC3 "v1" (2 * 2)).map (fun p => p.1.id) =
      ["v2", "v3"] := by
  unfold getContentBasedRecommendations
  have h : catalogueC3.find? (fun v => v.id = "v1") = some videoV1 := by
    simp [catalogueC3, videoV1, mkVideo, List.find?_cons]
  rw [h]
  have hfil : catalogueC3.filter (fun v => v.id ≠ "v1") = [videoV2, videoV3] := by
    simp [catalogueC3, videoV1, videoV2, videoV3, mkVideo, List.filter_cons]
  rw [hfil]
  simp only [List.map_cons, List.map_nil, sim_v1_v2, sim_v1_v3]
  norm_num [sortByDesc, insertByDesc]
  simp [videoV2, videoV3, mkVideo]

theorem hybrid_c3 :
    (getHybridRecommendations stateC3 catalogueC3 "u1" 2).map (fun p => p.1.id) =
      ["v3", "v2"] := by
  unfold getHybridRecommendations
  rw [collab_c3_empty, content_ref_u1_falls_back, popular_c3]
  simp only [List.foldl_nil, List.foldl_cons]
  simp [mapSetVid, videoV1, videoV2, videoV3, mkVideo]
  norm_num [sortByDesc, insertByDesc]

/-- C3: the hybrid recommender passes the userId itself as the
    reference-VIDEO id of its content-based half (contradicting the
    content recommender's own documented parameter), so for user u1 —
    whose first liked video is v1, while the id u1 matches no catalogue
    video — the content half silently degrades to the popularity blend:
    the hybrid returns v3 (the popularity leader) first, whereas the
    content recommender seeded with the first liked video v1, as the
    claim specifies and as the orchestrator's own content strategy does,
    ranks the similar video v2 first. Evaluation of the source embedding
    at the failing input. -/
theorem hybrid_uses_userId_as_reference :
    ((lookupProfile stateC3 "u1").map (fun p => p.likedVideos) = some ["v1"]) ∧
    (catalogueC3.find? (fun v => v.id = "u1") = none) ∧
    (getContentBasedRecommendations catalogueC3 "u1" (2 * 2) =
      getPopularRecommendations catalogueC3 (2 * 2)) ∧
    ((getHybridRecommendations stateC3 catalogueC3 "u1" 2).map (fun p => p.1.id) =
      ["v3", "v2"]) ∧
    ((getContentBasedRecommendations catalogueC3 "v1" (2 * 2)).map (fun p => p.1.id) =
      ["v2", "v3"]) :=
  ⟨rfl, by decide, content_ref_u1_falls_back, hybrid_c3, content_ref_v1⟩

theorem transformCSVVideoToAppFormat_id (e : Entropy) (v : Video) :
    (transformCSVVideoToAppFormat e v).map (fun a => a.id) =
      if v.id = "" ∨ v.title = "" ∨ v.channelName = "" then none
      else some v.id := by
  unfold transformCSVVideoToAppFormat
  split <;> simp

theorem transformList_map_id (ent : ℕ → Entropy) (l : List Video) :
    (transformList ent l).map (fun a => a.id) =
      l.filterMap (fun v =>
        if v.id = "" ∨ v.title = "" ∨ v.channelName = "" then none
        else some v.id) := by
  unfold transformList
  rw [List.map_filterMap]
  have hfun : (fun ie : ℕ × Video =>
      (transformCSVVideoToAppFormat (ent ie.1) ie.2).map (fun a => a.id)) =
      ((fun v : Video =>
        if v.id = "" ∨ v.title = "" ∨ v.channelName = "" then none
        else some v.id) ∘ Prod.snd) := by
    funext ie
    exact transformCSVVideoToAppFormat_id (ent ie.1) ie.2
  rw [hfun, ← List.filterMap_map, List.enum_map_snd]

theorem filterMap_retransform (l : List AppVideo) :
    l.filterMap retransformAppFormat = [] := by
  have h : retransformAppFormat = (fun _ : AppVideo => (none : Option AppVideo)) := rfl
  rw [h, filterMap_const_none]

/-- C10 (amended): for every state, catalogue, user, strategy, limit and
    any two entropy streams (Date.now and Math.random draws), the two
    calls of the orchestrator fallback path return the SAME video ids in
    the same order — the ranking is deterministic; only the
    presentation-only key and duration fields embed fresh randomness. -/
theorem recommendations_ids_deterministic (st : EngineState)
    (catalogue : List Video) (userId ty : String) (count : ℕ)
    (e1 e2 : ℕ → Entropy) :
    (getRecommendationsCSV st catalogue userId ty count e1).map (fun a => a.id) =
      (getRecommendationsCSV st catalogue userId ty count e2).map (fun a => a.id) := by
  have htl : ∀ l : List Video,
      (transformList e1 l).map (fun a => a.id) =
        (transformList e2 l).map (fun a => a.id) := by
    intro l
    rw [transformList_map_id, transformList_map_id]
  unfold getRecommendationsCSV
  split_ifs
  all_goals
    first
      | exact htl _
      | (cases hl : lookupProfile st userId with
          | none => simp [filterMap_retransform]
          | some p =>
              simp only []
              cases hlv : p.likedVideos with
              | nil => simp [filterMap_retransform]
              | cons likedVideoId rest => exact htl _)
      | simp [filterMap_retransform]

theorem collab_c4 :
    getCollaborativeRecommendations stateC4 [videoW1, videoW2] "u1" 1 =
      [(videoW2, 1/2)] := by
  simp [getCollaborativeRecommendations, lookupProfile, stateC4, emptyProfile,
    profileU1, profileU2, findSimilarUsers, calculateUserSimilarity, mkSet,
    addSet, sortByDesc, insertByDesc, accumCandidates, accumOneUser, mapSet,
    mapGetD, videoW1, videoW2, mkVideo, List.find?_cons]

/-- C10 counterexample: with the same preference-store state and
    catalogue and no intervening interactions, two getRecommendations
    calls on the CSV fallback path return DIFFERENT output, because
    transformCSVVideoToAppFormat embeds Date.now() and a Math.random()
    draw in the key field of every returned record (and fresh randomness
    in duration): the call is not idempotent at the level of the full
    returned records. -/
theorem recommendations_not_identical_across_calls :
    getRecommendationsCSV stateC4 [videoW1, videoW2] "u1" "collaborative" 1 entZero ≠
      getRecommendationsCSV stateC4 [videoW1, videoW2] "u1" "collaborative" 1 entOne := by
  have hkeys : ∀ e : ℕ → Entropy,
      (getRecommendationsCSV stateC4 [videoW1, videoW2] "u1" "collaborative" 1 e).map
          (fun a => a.key) =
        [videoW2.id ++ "_" ++ toString (e 0).now ++ "_" ++ toString (e 0).rSuffix] := by
    intro e
    unfold getRecommendationsCSV
    rw [if_pos rfl, collab_c4]
    simp [transformList, transformCSVVideoToAppFormat, videoW2, mkVideo]
  intro h
  have hk := congrArg (List.map (fun a => a.key)) h
  rw [hkeys entZero, hkeys entOne] at hk
  exact absurd hk (by decide)

theorem mapGetD_accumOneUser (prefs : Profile) (s : ℚ) (v : String)
    (liked : List String) :
    ∀ (m : List (String × ℚ)), liked.Nodup →
    mapGetD (accumOneUser prefs m liked s) v =
      mapGetD m v +
        (if v ∈ liked ∧ v ∉ prefs.likedVideos ∧ v ∉ prefs.dislikedVideos
         then s else 0) := by
  induction liked with
  | nil =>
      intro m _
      simp [accumOneUser]
  | cons x rest ih =>
      intro m hnd
      rcases List.nodup_cons.mp hnd with ⟨hx, hrest⟩
      show mapGetD (accumOneUser prefs
        (if x ∉ prefs.likedVideos ∧ x ∉ prefs.dislikedVideos
         then mapSet m x (mapGetD m x + s) else m) rest s) v = _
      rw [ih _ hrest]
      by_cases hvx : v = x
      · subst hvx
        by_cases hok : v ∉ prefs.likedVideos ∧ v ∉ prefs.dislikedVideos
        · rw [if_pos hok, mapGetD_mapSet, if_pos rfl]
          have hnr : ¬(v ∈ rest ∧ v ∉ prefs.likedVideos ∧ v ∉ prefs.dislikedVideos) :=
            fun hc => hx hc.1
          rw [if_neg hnr,
            if_pos ⟨List.mem_cons_self _ _, hok.1, hok.2⟩, add_zero]
        · rw [if_neg hok]
          have hnr : ¬(v ∈ rest ∧ v ∉ prefs.likedVideos ∧ v ∉ prefs.dislikedVideos) :=
            fun hc => hok hc.2
          have hnc : ¬(v ∈ v :: rest ∧ v ∉ prefs.likedVideos ∧ v ∉ prefs.dislikedVideos) :=
            fun hc => hok hc.2
          rw [if_neg hnr, if_neg hnc]
      · have hmem : (v ∈ x :: rest ∧ v ∉ prefs.likedVideos ∧ v ∉ prefs.dislikedVideos) ↔
            (v ∈ rest ∧ v ∉ prefs.likedVideos ∧ v ∉ prefs.dislikedVideos) := by
          constructor
          · rintro ⟨hm, h2⟩
            rcases List.mem_cons.mp hm with rfl | hm
            · exact absurd rfl hvx
            · exact ⟨hm, h2⟩
          · rintro ⟨hm, h2⟩
            exact ⟨List.mem_cons_of_mem _ hm, h2⟩
        by_cases hok : x ∉ prefs.likedVideos ∧ x ∉ prefs.dislikedVideos
        · rw [if_pos hok, mapGetD_mapSet, if_neg hvx]
          exact congrArg _ (by rw [if_congr hmem rfl rfl])
        · rw [if_neg hok]
          exact congrArg _ (by rw [if_congr hmem rfl rfl])

theorem keys_accumOneUser (prefs : Profile) (s : ℚ) (v : String)
    (liked : List String) :
    ∀ (m : List (String × ℚ)),
    v ∈ (accumOneUser prefs m liked s).map Prod.fst →
      v ∈ m.map Prod.fst ∨
        (v ∈ liked ∧ v ∉ prefs.likedVideos ∧ v ∉ prefs.dislikedVideos) := by
  induction liked with
  | nil =>
      intro m h
      exact Or.inl (by simpa [accumOneUser] using h)
  | cons x rest ih =>
      intro m h
      replace h : v ∈ (accumOneUser prefs
          (if x ∉ prefs.likedVideos ∧ x ∉ prefs.dislikedVideos
           then mapSet m x (mapGetD m x + s) else m) rest s).map Prod.fst := h
      rcases ih _ h with h1 | h1
      · by_cases hok : x ∉ prefs.likedVideos ∧ x ∉ prefs.dislikedVideos
        · rw [if_pos hok] at h1
          rcases mem_keys_mapSet h1 with h2 | rfl
          · exact Or.inl h2
          · exact Or.inr ⟨List.mem_cons_self _ _, hok.1, hok.2⟩
        · rw [if_neg hok] at h1
          exact Or.inl h1
      · exact Or.inr ⟨List.mem_cons_of_mem _ h1.1, h1.2⟩

theorem keys_nodup_accumOneUser (prefs : Profile) (s : ℚ)
    (liked : List String) :
    ∀ (m : List (String × ℚ)), (m.map Prod.fst).Nodup →
    ((accumOneUser prefs m liked s).map Prod.fst).Nodup := by
  induction liked with
  | nil =>
      intro m h
      simpa [accumOneUser] using h
  | cons x rest ih =>
      intro m h
      show ((accumOneUser prefs
        (if x ∉ prefs.likedVideos ∧ x ∉ prefs.dislikedVideos
         then mapSet m x (mapGetD m x + s) else m) rest s).map Prod.fst).Nodup
      apply ih
      split
      · exact nodup_keys_mapSet h
      · exact h

theorem mapGetD_accum_fold (st : EngineState) (prefs : Profile) (v : String)
    (hwf : ∀ e ∈ st, (Prod.snd e).likedVideos.Nodup)
    (users : List (String × ℚ)) :
    ∀ (m : List (String × ℚ)),
    mapGetD (users.foldl (fun m su =>
      match lookupProfile st su.1 with
      | some similarUserPrefs =>
          accumOneUser prefs m similarUserPrefs.likedVideos su.2
      | none => m) m) v =
      mapGetD m v + (users.map (collabContrib st prefs v)).sum := by
  induction users with
  | nil =>
      intro m
      simp
  | cons su rest ih =>
      intro m
      simp only [List.foldl_cons, List.map_cons, List.sum_cons]
      cases hl : lookupProfile st su.1 with
      | none =>
          rw [ih]
          simp only [collabContrib, hl]
          ring
      | some sp =>
          have hspnd : sp.likedVideos.Nodup := by
            have := hwf (su.1, sp) (mem_of_lookupProfile hl)
            simpa using this
          rw [ih, mapGetD_accumOneUser prefs su.2 v sp.likedVideos m hspnd]
          simp only [collabContrib, hl]
          ring

theorem mapGetD_accumCandidates (st : EngineState) (prefs : Profile)
    (v : String) (hwf : ∀ e ∈ st, (Prod.snd e).likedVideos.Nodup)
    (users : List (String × ℚ)) :
    mapGetD (accumCandidates st prefs users) v =
      (users.map (collabContrib st prefs v)).sum := by
  unfold accumCandidates
  rw [mapGetD_accum_fold st prefs v hwf users []]
  simp [mapGetD_nil]

theorem keys_accum_fold (st : EngineState) (prefs : Profile) (v : String)
    (users : List (String × ℚ)) :
    ∀ (m : List (String × ℚ)),
    v ∈ (users.foldl (fun m su =>
      match lookupProfile st su.1 with
      | some similarUserPrefs =>
          accumOneUser prefs m similarUserPrefs.likedVideos su.2
      | none => m) m).map Prod.fst →
      v ∈ m.map Prod.fst ∨
        (v ∉ prefs.likedVideos ∧ v ∉ prefs.dislikedVideos) := by
  induction users with
  | nil =>
      intro m h
      exact Or.inl h
  | cons su rest ih =>
      intro m h
      rw [List.foldl_cons] at h
      rcases ih _ h with h1 | h1
      · cases hl : lookupProfile st su.1 with
        | none =>
            rw [hl] at h1
            exact Or.inl h1
        | some sp =>
            rw [hl] at h1
            rcases keys_accumOneUser prefs su.2 v sp.likedVideos m h1 with h2 | h2
            · exact Or.inl h2
            · exact Or.inr h2.2
      · exact Or.inr h1

theorem keys_accumCandidates (st : EngineState) (prefs : Profile)
    (v : String) (users : List (String × ℚ))
    (h : v ∈ (accumCandidates st prefs users).map Prod.fst) :
    v ∉ prefs.likedVideos ∧ v ∉ prefs.dislikedVideos := by
  rcases keys_accum_fold st prefs v users [] h with h1 | h1
  · simp at h1
  · exact h1

theorem keys_nodup_accum_fold (st : EngineState) (prefs : Profile)
    (users : List (String × ℚ)) :
    ∀ (m : List (String × ℚ)), (m.map Prod.fst).Nodup →
    ((users.foldl (fun m su =>
      match lookupProfile st su.1 with
      | some similarUserPrefs =>
          accumOneUser prefs m similarUserPrefs.likedVideos su.2
      | none => m) m).map Prod.fst).Nodup := by
  induction users with
  | nil =>
      intro m h
      exact h
  | cons su rest ih =>
      intro m h
      rw [List.foldl_cons]
      apply ih
      cases hl : lookupProfile st su.1 with
      | none => exact h
      | some sp => exact keys_nodup_accumOneUser prefs su.2 sp.likedVideos m h

theorem keys_nodup_accumCandidates (st : EngineState) (prefs : Profile)
    (users : List (String × ℚ)) :
    ((accumCandidates st prefs users).map Prod.fst).Nodup := by
  unfold accumCandidates
  exact keys_nodup_accum_fold st prefs users [] (by simp)

theorem sum_contrib_filterMap (st : EngineState) (userId : String)
    (prefs : Profile) (v : String)
    (hokv : v ∉ prefs.likedVideos ∧ v ∉ prefs.dislikedVideos)
    (l : EngineState) :
    (∀ e ∈ l, lookupProfile st e.1 = some e.2) →
    (((l.filter (fun p => p.1 ≠ userId)).filterMap (fun p =>
        let s := calculateUserSimilarity prefs p.2
        if s > 0 then some (p.1, s) else none)).map
      (collabContrib st prefs v)).sum =
    ((l.filter (fun e => e.1 ≠ userId ∧
        0 < calculateUserSimilarity prefs e.2 ∧
        v ∈ e.2.likedVideos)).map
      (fun e => calculateUserSimilarity prefs e.2)).sum := by
  induction l with
  | nil =>
      intro _
      simp
  | cons e rest ih =>
      intro hl
      have he := hl e (List.mem_cons_self _ _)
      have hrest := ih (fun x hx => hl x (List.mem_cons_of_mem _ hx))
      by_cases h1 : e.1 = userId
      · have hd1 : decide (e.1 ≠ userId) = false := by simp [h1]
        have hd2 : decide (e.1 ≠ userId ∧ 0 < calculateUserSimilarity prefs e.2 ∧
            v ∈ e.2.likedVideos) = false := by simp [h1]
        simp only [List.filter_cons, hd1, hd2, Bool.false_eq_true, if_false]
        exact hrest
      · have hd1 : decide (e.1 ≠ userId) = true := by simp [h1]
        simp only [List.filter_cons, hd1, if_true]
        by_cases h2 : (0 : ℚ) < calculateUserSimilarity prefs e.2
        · simp only [List.filterMap_cons]
          rw [if_pos h2]
          simp only [List.map_cons, List.sum_cons]
          by_cases h3 : v ∈ e.2.likedVideos
          · have hd2 : decide (e.1 ≠ userId ∧ 0 < calculateUserSimilarity prefs e.2 ∧
                v ∈ e.2.likedVideos) = true := by simp [h1, h2, h3]
            simp only [hd2, if_true, List.map_cons, List.sum_cons]
            have hcon : collabContrib st prefs v (e.1, calculateUserSimilarity prefs e.2) =
                calculateUserSimilarity prefs e.2 := by
              simp only [collabContrib, he]
              rw [if_pos ⟨h3, hokv.1, hokv.2⟩]
            rw [hcon, hrest]
          · have hd2 : decide (e.1 ≠ userId ∧ 0 < calculateUserSimilarity prefs e.2 ∧
                v ∈ e.2.likedVideos) = false := by simp [h3]
            simp only [hd2, Bool.false_eq_true, if_false]
            have hcon : collabContrib st prefs v (e.1, calculateUserSimilarity prefs e.2) = 0 := by
              simp only [collabContrib, he]
              rw [if_neg (fun hc => h3 hc.1)]
            rw [hcon, hrest, zero_add]
        · simp only [List.filterMap_cons]
          rw [if_neg h2]
          have hd2 : decide (e.1 ≠ userId ∧ 0 < calculateUserSimilarity prefs e.2 ∧
              v ∈ e.2.likedVideos) = false := by simp [h2]
          simp only [hd2, Bool.false_eq_true, if_false]
          exact hrest

/-- C4: for a target user with at least one liked video (in a
    well-formed engine state: user keys unique, liked sets duplicate
    free), every entry returned by the collaborative recommender is a
    catalogue video that the target user has neither liked nor disliked,
    and its score equals the sum of the likedVideos-Jaccard similarities
    of exactly those other users whose similarity to the target is
    strictly positive and who liked that video; candidates with no
    catalogue record are dropped (the result only joins ids found in the
    catalogue). -/
theorem collaborative_scores_sum (st : EngineState) (catalogue : List Video)
    (userId : String) (limit : ℕ)
    (hkeys : (st.map Prod.fst).Nodup)
    (hwf : ∀ e ∈ st, (Prod.snd e).likedVideos.Nodup)
    (userPrefs : Profile) (hup : lookupProfile st userId = some userPrefs)
    (hliked : userPrefs.likedVideos ≠ []) :
    ∀ p ∈ getCollaborativeRecommendations st catalogue userId limit,
      p.1 ∈ catalogue ∧
      p.1.id ∉ userPrefs.likedVideos ∧
      p.1.id ∉ userPrefs.dislikedVideos ∧
      p.2 = ((st.filter (fun e => e.1 ≠ userId ∧
          0 < calculateUserSimilarity userPrefs e.2 ∧
          p.1.id ∈ e.2.likedVideos)).map
        (fun e => calculateUserSimilarity userPrefs e.2)).sum := by
  have hlen : ¬(userPrefs.likedVideos.length = 0) := by
    simpa [List.length_eq_zero] using hliked
  have hcoll : getCollaborativeRecommendations st catalogue userId limit =
      ((sortByDesc (fun q => q.2)
          (accumCandidates st userPrefs (findSimilarUsers st userId))).take
        limit).filterMap
        (fun q => (catalogue.find? (fun v => v.id = q.1)).map
          (fun v => (v, q.2))) := by
    unfold getCollaborativeRecommendations
    simp only [hup]
    rw [if_neg hlen]
  have hfsu : findSimilarUsers st userId =
      sortByDesc (fun q => q.2)
        ((st.filter (fun q => q.1 ≠ userId)).filterMap (fun q =>
          let s := calculateUserSimilarity userPrefs q.2
          if s > 0 then some (q.1, s) else none)) := by
    unfold findSimilarUsers
    simp only [hup]
  intro p hp
  rw [hcoll] at hp
  rcases List.mem_filterMap.mp hp with ⟨q, hq, hqp⟩
  rcases Option.map_eq_some'.mp hqp with ⟨w, hw, rfl⟩
  have hwmem : w ∈ catalogue := List.mem_of_find?_eq_some hw
  have hwid : w.id = q.1 := by
    have := List.find?_some hw
    simpa using this
  have hqcand : q ∈ accumCandidates st userPrefs (findSimilarUsers st userId) :=
    (mem_sortByDesc (fun q => q.2)).mp (List.mem_of_mem_take hq)
  have hndk := keys_nodup_accumCandidates st userPrefs (findSimilarUsers st userId)
  have hkeymem : q.1 ∈ (accumCandidates st userPrefs
      (findSimilarUsers st userId)).map Prod.fst :=
    List.mem_map.mpr ⟨q, hqcand, rfl⟩
  have hok := keys_accumCandidates st userPrefs q.1 _ hkeymem
  have hval : mapGetD (accumCandidates st userPrefs
      (findSimilarUsers st userId)) q.1 = q.2 := by
    apply mapGetD_of_mem_nodup _ hndk
    simpa using hqcand
  have hsum := mapGetD_accumCandidates st userPrefs q.1 hwf
    (findSimilarUsers st userId)
  have hlook : ∀ e ∈ st, lookupProfile st e.1 = some e.2 := by
    intro e hee
    have hmm : (e.1, e.2) ∈ st := by simpa using hee
    exact lookupProfile_of_mem_nodup hkeys hmm
  have hlink := sum_contrib_filterMap st userId userPrefs q.1 hok st hlook
  have hperm : List.Perm (findSimilarUsers st userId)
      ((st.filter (fun q => q.1 ≠ userId)).filterMap (fun q =>
        let s := calculateUserSimilarity userPrefs q.2
        if s > 0 then some (q.1, s) else none)) := by
    rw [hfsu]
    exact perm_sortByDesc _ _
  have hsum2 := (hperm.map (collabContrib st userPrefs q.1)).sum_eq
  refine ⟨hwmem, ?_, ?_, ?_⟩
  · rw [hwid]
    exact hok.1
  · rw [hwid]
    exact hok.2
  · show q.2 = _
    rw [hwid, ← hval, hsum, hsum2, hlink]

/-- Witness for C4 at a concrete input: in the two-user state, the
    collaborative recommendation (videoW2, 1/2) for u1 is a catalogue
    video u1 has neither liked nor disliked, and its score 1/2 is the
    similarity sum over the positively similar users who liked w2. -/
theorem collaborative_scores_sum_witness :
    videoW2 ∈ [videoW1, videoW2] ∧
    videoW2.id ∉ profileU1.likedVideos ∧
    videoW2.id ∉ profileU1.dislikedVideos ∧
    (1/2 : ℚ) = ((stateC4.filter (fun e => e.1 ≠ "u1" ∧
        0 < calculateUserSimilarity profileU1 e.2 ∧
        videoW2.id ∈ e.2.likedVideos)).map
      (fun e => calculateUserSimilarity profileU1 e.2)).sum :=
  collaborative_scores_sum stateC4 [videoW1, videoW2] "u1" 1
    (by decide) (by decide) profileU1 rfl (by decide) (videoW2, 1/2)
    (by rw [collab_c4]; exact List.mem_singleton.mpr rfl)

end Nexus
